import Mathlib

/-!
Shallow embedding of the access-control layer of the mhat backend
(share tokens, clinical invitations, family memberships), translated
from `src/backend/app`.  Persistent state is modelled as lists of rows;
time is a `Nat`; endpoint handlers are pure functions returning a result
together with the post-state (errors raised before any commit leave the
state unchanged, mirroring the transactional semantics of the source).
Randomly generated values (token strings, fresh row ids, the clock) are
passed in as parameters.
-/

/- ## Enumerations (app/models) -/

/-- `ShareType` enum from `app/models/sharing.py`. -/
inductive ShareType where
  | SPECIFIC_RECORDS
  | SUMMARY
deriving DecidableEq, Repr

/-- `RelationshipType` enum from `app/models/family.py`. -/
inductive RelationshipType where
  | SELF
  | PARENT
  | CHILD
  | SPOUSE
  | SIBLING
  | GRANDPARENT
  | GRANDCHILD
  | GUARDIAN
  | OTHER
deriving DecidableEq, Repr

/-- Family `AccessLevel` enum from `app/models/family.py`. -/
inductive FamAccessLevel where
  | FULL_ACCESS
  | READ_ONLY
  | EMERGENCY_ONLY
deriving DecidableEq, Repr

/-- Clinical access-level enum from `app/models/user.py`
(READ_ONLY / WRITE, used by `DoctorPatientAccess`). -/
inductive DoctorAccessLevel where
  | READ_ONLY
  | WRITE
deriving DecidableEq, Repr

/-- `AccessType` enum from `app/models/user.py`. -/
inductive AccessType where
  | PERMANENT
  | TEMPORARY
deriving DecidableEq, Repr

/- ## Row types -/

/-- A `share_tokens` row (`app/models/sharing.py`, class `ShareToken`).
Optional display metadata columns that nothing here reads are omitted. -/
structure ShareToken where
  id : Nat
  token : String
  patient_id : Nat
  created_by_user_id : Nat
  share_type : ShareType
  expires_at : Nat
  expiration_minutes : Nat
  is_revoked : Bool
  is_single_use : Bool
  access_count : Nat
deriving DecidableEq, Repr

/-- A `shared_records` junction row (`app/models/sharing.py`). -/
structure SharedRecord where
  id : Nat
  share_token_id : Nat
  medical_record_id : Nat
deriving DecidableEq, Repr

/-- A `share_access_logs` row (`app/models/sharing.py`). -/
structure ShareAccessLog where
  id : Nat
  share_token_id : Nat
  ip_address : Option String
  user_agent : Option String
deriving DecidableEq, Repr

/-- The columns of `medical_records` (`app/models/hx.py`) the access
layer reads: identity and owning patient. -/
structure MedicalRecord where
  id : Nat
  patient_id : Nat
deriving DecidableEq, Repr

/-- The columns of `documents` (`app/models/hx.py`) the sharing layer
reads: identity, owning record, and storage URL. -/
structure Document where
  id : Nat
  medical_record_id : Nat
  url : String
deriving DecidableEq, Repr

/-- A `patient_profiles` row as read here: identity and the (nullable)
linked user account. -/
structure PatientProfile where
  id : Nat
  user_id : Option Nat
deriving DecidableEq, Repr

/-- An `access_invitations` row (`app/models/access_invitation.py`). -/
structure AccessInvitation where
  id : Nat
  patient_profile_id : Nat
  created_by : Nat
  code : String
  access_level : DoctorAccessLevel
  access_type : AccessType
  expires_in_days : Option Nat
  code_expires_at : Nat
  claimed_by : Option Nat
  claimed_at : Option Nat
  is_revoked : Bool
deriving DecidableEq, Repr

/-- A `doctor_patient_access` row (`app/models/user.py`). -/
structure DoctorPatientAccess where
  doctor_id : Nat
  patient_profile_id : Nat
  access_level : DoctorAccessLevel
  access_type : AccessType
  granted_by : Nat
deriving DecidableEq, Repr

/-- A `family_memberships` row (`app/models/family.py`). -/
structure FamilyMembership where
  id : Nat
  user_id : Nat
  patient_profile_id : Nat
  relationship_type : RelationshipType
  access_level : FamAccessLevel
  can_manage_family : Bool
  created_by : Nat
  is_active : Bool
  revoked_at : Option Nat
  revoked_by : Option Nat
deriving DecidableEq, Repr

/- ## Persisted state -/

/-- The persisted state visible to the sharing endpoints. -/
structure SharingDB where
  profiles : List PatientProfile
  medical_records : List MedicalRecord
  documents : List Document
  share_tokens : List ShareToken
  shared_records : List SharedRecord
  access_logs : List ShareAccessLog
deriving DecidableEq, Repr

/-- Uniqueness the schema enforces: `share_tokens.token` has a unique
index and `share_tokens.id` is the primary key. -/
def SharingDB.wf (db : SharingDB) : Prop :=
  (db.share_tokens.map ShareToken.token).Nodup ∧
  (db.share_tokens.map ShareToken.id).Nodup

instance (db : SharingDB) : Decidable db.wf := by
  unfold SharingDB.wf; infer_instance

/-- The persisted state visible to the invitation / doctor-access
endpoints. -/
structure ClinicalDB where
  profiles : List PatientProfile
  invitations : List AccessInvitation
  accesses : List DoctorPatientAccess
deriving DecidableEq, Repr

/-- Uniqueness the schema enforces: `access_invitations.code` has a
unique index and `access_invitations.id` is the primary key. -/
def ClinicalDB.wf (db : ClinicalDB) : Prop :=
  (db.invitations.map AccessInvitation.code).Nodup ∧
  (db.invitations.map AccessInvitation.id).Nodup

instance (db : ClinicalDB) : Decidable db.wf := by
  unfold ClinicalDB.wf; infer_instance

/-- The persisted state visible to the family service. -/
structure FamilyDB where
  memberships : List FamilyMembership
deriving DecidableEq, Repr

/- ## Error taxonomy (HTTP errors raised by the handlers) -/

/-- Errors raised by the sharing endpoints (`HTTPException`s in
`app/api/endpoints/sharing.py`): 404, 400 on missing `record_ids`,
403 on failed ownership, 400 on wrong share type. -/
inductive ShareError where
  | notFound
  | invalidInput
  | permissionDenied
  | badRequest
deriving DecidableEq, Repr

/-- Errors raised by `claim_invitation_code` in
`app/api/endpoints/doctor.py`. -/
inductive ClaimError where
  | notFound
  | revoked
  | alreadyUsed
  | expired
deriving DecidableEq, Repr

/-- Errors raised by `revoke_invitation` in
`app/api/endpoints/profiles.py`. -/
inductive InvError where
  | notFound
  | notYourInvitation
  | cannotRevokeClaimed
deriving DecidableEq, Repr

/-- Errors (`ValueError`s) raised by `FamilyService` in
`app/services/family_service.py`. -/
inductive FamilyError where
  | notFound
  | permissionDenied
  | alreadyExists
deriving DecidableEq, Repr

/- ## Share-token utilities (app/utils/sharing.py) -/

/-- `validate_share_token` from `app/utils/sharing.py`: fetch the row by
token string, then reject when expired (`expires_at < now`), revoked, or
single-use with a prior access; otherwise return the row.  Pure: takes
the state and returns only the lookup result. -/
def validate_share_token (token : String) (now : Nat) (db : SharingDB) :
    Option ShareToken :=
  match db.share_tokens.find? (fun st => st.token == token) with
  | none => none
  | some share_token =>
    if share_token.expires_at < now then none
    else if share_token.is_revoked then none
    else if share_token.is_single_use && share_token.access_count > 0 then none
    else some share_token

/-- `check_record_ownership` from `app/utils/sharing.py`: the patient is
taken to own all requested records iff the number of `medical_records`
rows whose id is among `record_ids` and whose `patient_id` matches equals
the number of requested ids. -/
def check_record_ownership (patient_id : Nat) (record_ids : List Nat)
    (db : SharingDB) : Bool :=
  (db.medical_records.filter
    (fun r => record_ids.contains r.id && r.patient_id == patient_id)).length
    == record_ids.length

/-- `is_token_expired` from `app/utils/sharing.py`. -/
def is_token_expired (share_token : ShareToken) (now : Nat) : Bool :=
  share_token.expires_at < now

/- ## Sharing endpoints (app/api/endpoints/sharing.py) -/

/-- One row's view of
`UPDATE share_tokens SET access_count = access_count + 1 WHERE id = ...`. -/
def bump_token (shareTokenId : Nat) (st : ShareToken) : ShareToken :=
  if st.id == shareTokenId then
    { st with access_count := st.access_count + 1 }
  else st

/-- The state change common to `view_shared_records` and
`view_medical_history_summary`: append one `ShareAccessLog` row and run
the conditional `access_count` increment. -/
def log_and_increment (shareTokenId logId : Nat) (ip ua : Option String)
    (db : SharingDB) : SharingDB :=
  { db with
    access_logs := db.access_logs ++ [⟨logId, shareTokenId, ip, ua⟩]
    share_tokens := db.share_tokens.map (bump_token shareTokenId) }

/-- The request body of `POST /share`
(`app/schemas/sharing.py`, `CreateShareRequest`). -/
structure CreateShareRequest where
  share_type : ShareType
  record_ids : List Nat
  expiration_minutes : Nat
  is_single_use : Bool
deriving DecidableEq, Repr

/-- `create_share_link` from `app/api/endpoints/sharing.py`: resolve the
caller's patient profile (404 if none); for SPECIFIC_RECORDS require a
non-empty `record_ids` (400) all owned by the patient (403); then persist
one `ShareToken` (expiring `expiration_minutes` from now) plus one
`SharedRecord` per requested id (SPECIFIC_RECORDS only).  The generated
token string and the fresh row ids are parameters. -/
def create_share_link (currentUserId : Nat) (req : CreateShareRequest)
    (newTokenId : Nat) (newToken : String) (junctionIds : List Nat)
    (now : Nat) (db : SharingDB) : Except ShareError String × SharingDB :=
  match db.profiles.find? (fun p => p.user_id == some currentUserId) with
  | none => (.error .notFound, db)
  | some patient_profile =>
    if req.share_type == ShareType.SPECIFIC_RECORDS && req.record_ids.isEmpty then
      (.error .invalidInput, db)
    else if req.share_type == ShareType.SPECIFIC_RECORDS &&
        !check_record_ownership patient_profile.id req.record_ids db then
      (.error .permissionDenied, db)
    else
      let share_token : ShareToken :=
        { id := newTokenId
          token := newToken
          patient_id := patient_profile.id
          created_by_user_id := currentUserId
          share_type := req.share_type
          expires_at := now + req.expiration_minutes
          expiration_minutes := req.expiration_minutes
          is_revoked := false
          is_single_use := req.is_single_use
          access_count := 0 }
      let junction : List SharedRecord :=
        if req.share_type == ShareType.SPECIFIC_RECORDS &&
            !req.record_ids.isEmpty then
          (req.record_ids.zip junctionIds).map (fun rj =>
            ⟨rj.2, newTokenId, rj.1⟩)
        else []
      (.ok newToken,
        { db with
          share_tokens := db.share_tokens ++ [share_token]
          shared_records := db.shared_records ++ junction })

/-- `view_shared_records` (`GET /shared/{token}`): validate the token
(one opaque 404 on any failure), append one access log row, increment
`access_count`, then return the shared records.  The fresh log id and the
request's ip / user-agent are parameters. -/
def view_shared_records (token : String) (now logId : Nat)
    (ip ua : Option String) (db : SharingDB) :
    Except ShareError (List MedicalRecord) × SharingDB :=
  match validate_share_token token now db with
  | none => (.error .notFound, db)
  | some share_token =>
    let record_ids := (db.shared_records.filter
      (fun sr => sr.share_token_id == share_token.id)).map
        SharedRecord.medical_record_id
    (.ok (db.medical_records.filter (fun r => record_ids.contains r.id)),
      log_and_increment share_token.id logId ip ua db)

/-- `view_medical_history_summary` (`GET /shared/{token}/summary`):
validate the token, require share type SUMMARY (400), append one access
log row and increment `access_count`, then build the summary for the
patient profile (modelled by returning the profile; the summary builder
itself is outside the access layer).  As in the source, the profile
lookup happens after the log/increment commit. -/
def view_medical_history_summary (token : String) (now logId : Nat)
    (ip ua : Option String) (db : SharingDB) :
    Except ShareError PatientProfile × SharingDB :=
  match validate_share_token token now db with
  | none => (.error .notFound, db)
  | some share_token =>
    if share_token.share_type != ShareType.SUMMARY then (.error .badRequest, db)
    else
      let db' := log_and_increment share_token.id logId ip ua db
      match db.profiles.find? (fun p => p.id == share_token.patient_id) with
      | none => (.error .notFound, db')
      | some patient_profile => (.ok patient_profile, db')

/-- `view_summary_record_detail` (`GET /shared/{token}/record/{id}`):
validate the token, require share type SUMMARY, fetch the record owned by
the share's patient, and return it.  The source performs no access
logging and no `access_count` increment on this path. -/
def view_summary_record_detail (token : String) (recordId now : Nat)
    (db : SharingDB) : Except ShareError MedicalRecord × SharingDB :=
  match validate_share_token token now db with
  | none => (.error .notFound, db)
  | some share_token =>
    if share_token.share_type != ShareType.SUMMARY then (.error .badRequest, db)
    else
      match db.medical_records.find? (fun r =>
          r.id == recordId && r.patient_id == share_token.patient_id) with
      | none => (.error .notFound, db)
      | some record => (.ok record, db)

/-- `view_shared_document` (`GET /shared/{token}/document/{id}`):
validate the token (any share type), fetch the document joined to a
medical record of the share's patient, and redirect to its URL.  The
source performs no access logging and no `access_count` increment on
this path. -/
def view_shared_document (token : String) (documentId now : Nat)
    (db : SharingDB) : Except ShareError String × SharingDB :=
  match validate_share_token token now db with
  | none => (.error .notFound, db)
  | some share_token =>
    match db.documents.find? (fun d => d.id == documentId &&
        db.medical_records.any (fun r => r.id == d.medical_record_id &&
          r.patient_id == share_token.patient_id)) with
    | none => (.error .notFound, db)
    | some document => (.ok document.url, db)

/- ## Invitation claim and revocation
(app/api/endpoints/doctor.py, app/api/endpoints/profiles.py) -/

/-- Code normalization in `claim_invitation_code`:
`claim_in.code.strip().upper()` — drop leading and trailing whitespace,
then uppercase, written over the character list. -/
def normalize_code (code : String) : String :=
  String.mk (((code.data.dropWhile Char.isWhitespace).reverse.dropWhile
    Char.isWhitespace).reverse.map Char.toUpper)

/-- The new `DoctorPatientAccess` row `claim_invitation_code` inserts
when the doctor has no access yet:
`granted_by = invitation.created_by`. -/
def new_claim_access (doctorId : Nat) (invitation : AccessInvitation) :
    DoctorPatientAccess :=
  { doctor_id := doctorId
    patient_profile_id := invitation.patient_profile_id
    access_level := invitation.access_level
    access_type := invitation.access_type
    granted_by := invitation.created_by }

/-- The in-place update `claim_invitation_code` applies to an existing
(doctor, patient) access row: adopt the invitation's level and type. -/
def upgrade_access (invitation : AccessInvitation)
    (a : DoctorPatientAccess) : DoctorPatientAccess :=
  { a with access_level := invitation.access_level
           access_type := invitation.access_type }

/-- Marking an invitation claimed: set `claimed_by` and `claimed_at`. -/
def mark_claimed (doctorId now : Nat) (i : AccessInvitation) :
    AccessInvitation :=
  { i with claimed_by := some doctorId, claimed_at := some now }

/-- `claim_invitation_code` from `app/api/endpoints/doctor.py`: normalize
the code, look the invitation up, reject revoked / already-claimed /
expired (`code_expires_at < now`) codes; on success update the existing
`DoctorPatientAccess` row for (doctor, patient) if one exists, otherwise
insert one with `granted_by = invitation.created_by`, and mark the
invitation claimed. -/
def claim_invitation_code (rawCode : String) (doctorId now : Nat)
    (db : ClinicalDB) : Except ClaimError Unit × ClinicalDB :=
  let code := normalize_code rawCode
  match db.invitations.find? (fun i => i.code == code) with
  | none => (.error .notFound, db)
  | some invitation =>
    if invitation.is_revoked then (.error .revoked, db)
    else if invitation.claimed_by.isSome then (.error .alreadyUsed, db)
    else if invitation.code_expires_at < now then (.error .expired, db)
    else
      let accesses :=
        if db.accesses.any (fun a => a.doctor_id == doctorId &&
            a.patient_profile_id == invitation.patient_profile_id) then
          db.accesses.map (fun a =>
            if a.doctor_id == doctorId &&
                a.patient_profile_id == invitation.patient_profile_id then
              upgrade_access invitation a
            else a)
        else
          db.accesses ++ [new_claim_access doctorId invitation]
      let invitations := db.invitations.map (fun i =>
        if i.code == code then mark_claimed doctorId now i else i)
      (.ok (), { db with invitations := invitations, accesses := accesses })

/-- `revoke_invitation` from `app/api/endpoints/profiles.py`: find the
invitation (404), require it to belong to the caller's patient profile
(403), refuse if already claimed (400), else set `is_revoked`. -/
def revoke_invitation (currentUserId invitationId : Nat) (db : ClinicalDB) :
    Except InvError Unit × ClinicalDB :=
  match db.invitations.find? (fun i => i.id == invitationId) with
  | none => (.error .notFound, db)
  | some invitation =>
    match db.profiles.find? (fun p => p.user_id == some currentUserId) with
    | none => (.error .notYourInvitation, db)
    | some profile =>
      if invitation.patient_profile_id != profile.id then
        (.error .notYourInvitation, db)
      else if invitation.claimed_by.isSome then
        (.error .cannotRevokeClaimed, db)
      else
        (.ok (), { db with invitations := db.invitations.map (fun i =>
          if i.id == invitationId then { i with is_revoked := true } else i) })

/- ## Family service (app/services/family_service.py) -/

/-- The `access_hierarchy` dictionary in `FamilyService.check_access`. -/
def access_hierarchy : FamAccessLevel → Nat
  | .EMERGENCY_ONLY => 0
  | .READ_ONLY => 1
  | .FULL_ACCESS => 2

/-- `FamilyService.check_access`: true iff an active membership exists for
(user, patient) and its level sits at least as high in the hierarchy as
the required level. -/
def check_access (db : FamilyDB) (userId patientProfileId : Nat)
    (requiredLevel : FamAccessLevel) : Bool :=
  match db.memberships.find? (fun m => m.user_id == userId &&
      m.patient_profile_id == patientProfileId && m.is_active) with
  | none => false
  | some membership =>
    decide (access_hierarchy requiredLevel ≤
      access_hierarchy membership.access_level)

/-- The new active membership row `add_family_member_access` inserts:
the given relationship type, access level and management flag, created
by the granter. -/
def new_family_membership (granterUserId granteeUserId
    patientProfileId : Nat) (relationshipType : RelationshipType)
    (accessLevel : FamAccessLevel) (canManageFamily : Bool) (newId : Nat) :
    FamilyMembership :=
  { id := newId
    user_id := granteeUserId
    patient_profile_id := patientProfileId
    relationship_type := relationshipType
    access_level := accessLevel
    can_manage_family := canManageFamily
    created_by := granterUserId
    is_active := true
    revoked_at := none
    revoked_by := none }

/-- `FamilyService.add_family_member_access`: require an active
`can_manage_family` membership for the granter on the patient
(PermissionDenied), refuse if the grantee already has an active
membership (AlreadyExists), else insert a new active membership with the
given relationship type, access level and management flag. -/
def add_family_member_access (granterUserId granteeUserId
    patientProfileId : Nat) (relationshipType : RelationshipType)
    (accessLevel : FamAccessLevel) (canManageFamily : Bool) (newId : Nat)
    (db : FamilyDB) : Except FamilyError FamilyMembership × FamilyDB :=
  match db.memberships.find? (fun m => m.user_id == granterUserId &&
      m.patient_profile_id == patientProfileId && m.is_active &&
      m.can_manage_family) with
  | none => (.error .permissionDenied, db)
  | some _ =>
    match db.memberships.find? (fun m => m.user_id == granteeUserId &&
        m.patient_profile_id == patientProfileId && m.is_active) with
    | some _ => (.error .alreadyExists, db)
    | none =>
      let membership := new_family_membership granterUserId granteeUserId
        patientProfileId relationshipType accessLevel canManageFamily newId
      (.ok membership, { db with memberships := db.memberships ++ [membership] })

/-- The soft-delete `revoke_access` applies: keep the row, set
`is_active = false`, `revoked_at` and `revoked_by`. -/
def soft_revoke (now revokerUserId : Nat) (m : FamilyMembership) :
    FamilyMembership :=
  { m with is_active := false, revoked_at := some now,
           revoked_by := some revokerUserId }

/-- `FamilyService.revoke_access`: find the membership (NotFound); permit
when the revoker holds an active `can_manage_family` membership on the
same patient or is the membership's own user; then soft-delete: set
`is_active = false`, `revoked_at`, `revoked_by`, keeping the row. -/
def revoke_access (revokerUserId membershipId now : Nat) (db : FamilyDB) :
    Except FamilyError FamilyMembership × FamilyDB :=
  match db.memberships.find? (fun m => m.id == membershipId) with
  | none => (.error .notFound, db)
  | some membership =>
    let revoker_membership := db.memberships.find? (fun m =>
      m.user_id == revokerUserId &&
      m.patient_profile_id == membership.patient_profile_id &&
      m.is_active && m.can_manage_family)
    if revoker_membership.isNone && membership.user_id != revokerUserId then
      (.error .permissionDenied, db)
    else
      (.ok (soft_revoke now revokerUserId membership),
        { db with memberships := db.memberships.map (fun m =>
          if m.id == membershipId then soft_revoke now revokerUserId m
          else m) })

/- ## Concrete states for witnesses and counterexamples -/

/-- State for C1: one share token whose `expires_at` equals the chosen
instant. -/
def c1DB : SharingDB :=
  { profiles := [⟨1, some 10⟩]
    medical_records := []
    documents := []
    share_tokens := [⟨1, "TOK", 1, 10, ShareType.SUMMARY, 5, 20, false, false, 0⟩]
    shared_records := []
    access_logs := [] }

/-- The stored token of `c1DB`. -/
def c1Tok : ShareToken :=
  ⟨1, "TOK", 1, 10, ShareType.SUMMARY, 5, 20, false, false, 0⟩

/-- State for C2: one single-use share token over one shared record. -/
def c2DB : SharingDB :=
  { profiles := [⟨1, some 10⟩]
    medical_records := [⟨7, 1⟩]
    documents := []
    share_tokens := [⟨1, "SUT", 1, 10, ShareType.SPECIFIC_RECORDS, 100, 20, false, true, 0⟩]
    shared_records := [⟨1, 1, 7⟩]
    access_logs := [] }

/-- The stored token of `c2DB`. -/
def c2Tok : ShareToken :=
  ⟨1, "SUT", 1, 10, ShareType.SPECIFIC_RECORDS, 100, 20, false, true, 0⟩

/-- State for C3: the patient (profile 1, user 10) owns record 1 only. -/
def c3DB : SharingDB :=
  { profiles := [⟨1, some 10⟩]
    medical_records := [⟨1, 1⟩]
    documents := []
    share_tokens := []
    shared_records := []
    access_logs := [] }

/-- Request for C3: share records 1 and 2, record 2 not owned. -/
def c3Req : CreateShareRequest :=
  { share_type := ShareType.SPECIFIC_RECORDS
    record_ids := [1, 2]
    expiration_minutes := 20
    is_single_use := true }

/-- Invitation for C4/C5: unclaimed, unrevoked, code window closing at
instant 10. -/
def c4Inv : AccessInvitation :=
  ⟨1, 1, 10, "MHAT-AB23", DoctorAccessLevel.WRITE, AccessType.TEMPORARY,
    some 30, 10, none, none, false⟩

/-- State for C4/C5: one open invitation, no doctor access rows yet. -/
def c4DB : ClinicalDB :=
  { profiles := [⟨1, some 10⟩]
    invitations := [c4Inv]
    accesses := [] }

/-- Membership for C6/C7: user 20 manages patient 1
(`can_manage_family`). -/
def famManager : FamilyMembership :=
  ⟨1, 20, 1, RelationshipType.PARENT, FamAccessLevel.FULL_ACCESS, true, 20,
    true, none, none⟩

/-- Membership for C7: user 21 holds plain read access on patient 1. -/
def famReader : FamilyMembership :=
  ⟨2, 21, 1, RelationshipType.OTHER, FamAccessLevel.READ_ONLY, false, 20,
    true, none, none⟩

/-- State for C6/C7/C9: a managing parent and a readable relative. -/
def famDB : FamilyDB :=
  { memberships := [famManager, famReader] }

/-- Token for C8: a live SUMMARY share token for patient 1. -/
def c8Tok : ShareToken :=
  ⟨1, "DOCTOK", 1, 10, ShareType.SUMMARY, 100, 20, false, false, 0⟩

/-- State for C8: the live token plus a record and a document owned by
patient 1. -/
def c8DB : SharingDB :=
  { profiles := [⟨1, some 10⟩]
    medical_records := [⟨3, 1⟩]
    documents := [⟨4, 3, "https://s3/doc4"⟩]
    share_tokens := [c8Tok]
    shared_records := []
    access_logs := [] }

/-- Invitation for C10: already claimed by doctor 7, not revoked. -/
def c10Inv : AccessInvitation :=
  ⟨2, 1, 10, "MHAT-ZZ99", DoctorAccessLevel.READ_ONLY, AccessType.PERMANENT,
    none, 10, some 7, some 3, false⟩

/-- State for C10: the claimed invitation, owned by patient user 10. -/
def c10DB : ClinicalDB :=
  { profiles := [⟨1, some 10⟩]
    invitations := [c10Inv]
    accesses := [] }

/- ## Generic list lemmas used by several proofs -/

/-- In a list whose keys are pairwise distinct, `find?` on a key that some
member carries returns exactly that member. -/
theorem find_eq_of_key_nodup {α κ : Type} [DecidableEq κ] (key : α → κ)
    {l : List α} (hnd : (l.map key).Nodup) {x : α} (hx : x ∈ l) :
    l.find? (fun y => key y == key x) = some x := by
  induction l with
  | nil => cases hx
  | cons a t ih =>
    simp only [List.map_cons, List.nodup_cons] at hnd
    rcases List.mem_cons.mp hx with rfl | hmem
    · exact List.find?_cons_of_pos _ (by simp)
    · have hne : key a ≠ key x := by
        intro h
        exact hnd.1 (h ▸ List.mem_map_of_mem key hmem)
      rw [List.find?_cons_of_neg _ (by simpa using hne)]
      exact ih hnd.2 hmem

/-- `find?` over a mapped list, when the map preserves the searched key. -/
theorem find_map_key {α κ : Type} [DecidableEq κ] (key : α → κ) (f : α → α)
    (hf : ∀ a, key (f a) = key a) (l : List α) (k : κ) :
    (l.map f).find? (fun y => key y == k) =
      (l.find? (fun y => key y == k)).map f := by
  rw [List.find?_map]
  have hp : ((fun y => key y == k) ∘ f) = (fun y => key y == k) := by
    funext a
    simp [Function.comp, hf]
  rw [hp]

/- ## C1: validate_share_token characterization -/

/-- C1 (counterexample): the claim requires `validate` to return null
unless `now < expires_at`; at `now = expires_at = 5` the code accepts the
token, because the source rejects only when `expires_at < now`. -/
theorem c1_counterexample :
    validate_share_token "TOK" 5 c1DB = some c1Tok ∧
      ¬ (5 < c1Tok.expires_at) := by
  constructor
  · rfl
  · decide

/-- C1 (amended): for a well-formed state (unique token strings),
`validate_share_token t now db` returns a stored row `st` iff `st` is a
share-token row with `st.token = t`, `now ≤ expires_at` (the source
rejects strictly past expiry only), `is_revoked` is false, and not
(`is_single_use` with `access_count > 0`); in every other case the result
is `none`, one opaque value for all failure causes, and the function
mutates nothing (it takes the state and returns only the lookup result). -/
theorem validate_share_token_spec (db : SharingDB) (h : db.wf)
    (t : String) (now : Nat) (st : ShareToken) :
    validate_share_token t now db = some st ↔
      (st ∈ db.share_tokens ∧ st.token = t ∧ now ≤ st.expires_at ∧
        st.is_revoked = false ∧
        ¬ (st.is_single_use = true ∧ st.access_count > 0)) := by
  constructor
  · intro hv
    unfold validate_share_token at hv
    cases hfind : db.share_tokens.find? (fun x => x.token == t) with
    | none => simp [hfind] at hv
    | some found =>
      simp only [hfind] at hv
      have hmem := List.mem_of_find?_eq_some hfind
      have htok : found.token = t := by
        have := List.find?_some hfind
        simpa using this
      split_ifs at hv with hexp hrev hsu
      have hst : found = st := by simpa using hv
      subst hst
      refine ⟨hmem, htok, Nat.le_of_not_lt hexp, by simpa using hrev, ?_⟩
      intro ⟨h1, h2⟩
      exact hsu (by simp [h1, h2])
  · intro ⟨hmem, htok, hexp, hrev, hsu⟩
    have hfind : db.share_tokens.find? (fun y => y.token == t) = some st := by
      have := find_eq_of_key_nodup ShareToken.token h.1 hmem
      rwa [htok] at this
    have hsu' : (st.is_single_use && decide (st.access_count > 0)) = false := by
      cases h1 : st.is_single_use with
      | false => simp
      | true =>
        simp only [Bool.true_and, decide_eq_false_iff_not]
        exact fun hc => hsu ⟨h1, hc⟩
    unfold validate_share_token
    simp [hfind, Nat.not_lt.mpr hexp, hrev, hsu']

/-- Witness for `validate_share_token_spec` at the concrete state `c1DB`. -/
theorem validate_share_token_spec_witness :
    c1DB.wf ∧
      (validate_share_token "TOK" 4 c1DB = some c1Tok ↔
        (c1Tok ∈ c1DB.share_tokens ∧ c1Tok.token = "TOK" ∧
          4 ≤ c1Tok.expires_at ∧ c1Tok.is_revoked = false ∧
          ¬ (c1Tok.is_single_use = true ∧ c1Tok.access_count > 0))) :=
  ⟨by decide, validate_share_token_spec c1DB (by decide) "TOK" 4 c1Tok⟩

/- ## C2: single-use consumption -/

/-- A successful `validate_share_token` came from `find?` and passed the
three checks. -/
theorem validate_some_elim {t : String} {now : Nat} {db : SharingDB}
    {st : ShareToken} (hv : validate_share_token t now db = some st) :
    db.share_tokens.find? (fun y => y.token == t) = some st ∧
      ¬ st.expires_at < now ∧ st.is_revoked = false ∧
      (st.is_single_use && decide (st.access_count > 0)) = false := by
  unfold validate_share_token at hv
  cases hfind : db.share_tokens.find? (fun x => x.token == t) with
  | none => simp [hfind] at hv
  | some found =>
    simp only [hfind] at hv
    split_ifs at hv with hexp hrev hsu
    have hst : found = st := by simpa using hv
    subst hst
    exact ⟨rfl, hexp, by simpa using hrev, by simpa using hsu⟩

/-- C2: a first successful validate followed by the log-and-increment the
public shared-records view performs increments the single-use token's
`access_count`; afterwards every validate of the same token string
returns `none`, at any later (or any) instant — so the token yields at
most one successful retrieval in sequential execution. -/
theorem single_use_token_consumed (db : SharingDB) (t : String)
    (now logId : Nat) (ip ua : Option String) (st : ShareToken)
    (hval : validate_share_token t now db = some st)
    (hsu : st.is_single_use = true) :
    (∃ recs, (view_shared_records t now logId ip ua db).1 = Except.ok recs) ∧
      ({ st with access_count := st.access_count + 1 } ∈
        (view_shared_records t now logId ip ua db).2.share_tokens) ∧
      (∀ now2 : Nat,
        validate_share_token t now2
          (view_shared_records t now logId ip ua db).2 = none) := by
  obtain ⟨hfind, hexp, hrev, hsucond⟩ := validate_some_elim hval
  have hmem : st ∈ db.share_tokens := List.mem_of_find?_eq_some hfind
  have hview : view_shared_records t now logId ip ua db =
      (Except.ok (db.medical_records.filter (fun r =>
        ((db.shared_records.filter
          (fun sr => sr.share_token_id == st.id)).map
            SharedRecord.medical_record_id).contains r.id)),
        log_and_increment st.id logId ip ua db) := by
    unfold view_shared_records
    rw [hval]
  have hpres : ∀ a : ShareToken, (bump_token st.id a).token = a.token := by
    intro a
    unfold bump_token
    by_cases hid : a.id == st.id <;> simp [hid]
  have hbump : bump_token st.id st =
      { st with access_count := st.access_count + 1 } := by
    simp [bump_token]
  refine ⟨⟨_, by rw [hview]⟩, ?_, ?_⟩
  · rw [hview]
    show _ ∈ (log_and_increment st.id logId ip ua db).share_tokens
    rw [← hbump]
    exact List.mem_map_of_mem _ hmem
  · intro now2
    rw [hview]
    show validate_share_token t now2 (log_and_increment st.id logId ip ua db) = none
    have hfind2 : (log_and_increment st.id logId ip ua db).share_tokens.find?
        (fun y => y.token == t) =
        some { st with access_count := st.access_count + 1 } := by
      show (db.share_tokens.map (bump_token st.id)).find?
        (fun y => y.token == t) = _
      rw [find_map_key ShareToken.token (bump_token st.id) hpres
        db.share_tokens t, hfind]
      simp [hbump]
    unfold validate_share_token
    rw [hfind2]
    by_cases h2 : st.expires_at < now2
    · simp [h2]
    · simp [h2, hrev, hsu]

/-- Witness for `single_use_token_consumed` at the concrete state `c2DB`. -/
theorem single_use_token_consumed_witness :
    validate_share_token "SUT" 3 c2DB = some c2Tok ∧
      c2Tok.is_single_use = true ∧
      ((∃ recs, (view_shared_records "SUT" 3 1 none none c2DB).1 =
          Except.ok recs) ∧
        ({ c2Tok with access_count := c2Tok.access_count + 1 } ∈
          (view_shared_records "SUT" 3 1 none none c2DB).2.share_tokens) ∧
        (∀ now2 : Nat, validate_share_token "SUT" now2
          (view_shared_records "SUT" 3 1 none none c2DB).2 = none)) :=
  ⟨by decide, by decide,
    single_use_token_consumed c2DB "SUT" 3 1 none none c2Tok
      (by decide) (by decide)⟩

/- ## C3: all-or-nothing ownership check in create_share_link -/

/-- If some requested id has no matching owned record, the ownership
count comes up short and `check_record_ownership` is false. -/
theorem check_record_ownership_false (pid : Nat) (rids : List Nat)
    (db : SharingDB)
    (hnd : (db.medical_records.map MedicalRecord.id).Nodup)
    {r : Nat} (hr : r ∈ rids)
    (hno : ¬ ∃ m ∈ db.medical_records, m.id = r ∧ m.patient_id = pid) :
    check_record_ownership pid rids db = false := by
  unfold check_record_ownership
  set F := db.medical_records.filter
    (fun m => rids.contains m.id && m.patient_id == pid) with hF
  have hsub : F.Sublist db.medical_records := List.filter_sublist _
  have hndF : (F.map MedicalRecord.id).Nodup :=
    List.Nodup.sublist (List.Sublist.map MedicalRecord.id hsub) hnd
  have hsubset : (F.map MedicalRecord.id) ⊆ rids.erase r := by
    intro x hx
    obtain ⟨m, hmF, rfl⟩ := List.mem_map.mp hx
    have hmprop := List.of_mem_filter hmF
    have hmmem := List.mem_of_mem_filter hmF
    have hmprop2 : m.id ∈ rids ∧ m.patient_id = pid := by
      simpa using hmprop
    have hne : m.id ≠ r := fun h => hno ⟨m, hmmem, h, hmprop2.2⟩
    exact (List.mem_erase_of_ne hne).mpr hmprop2.1
  have hlen : F.length < rids.length := by
    have h1 : (F.map MedicalRecord.id).length ≤ (rids.erase r).length :=
      (List.subperm_of_subset hndF hsubset).length_le
    have h2 : (rids.erase r).length = rids.length - 1 :=
      List.length_erase_of_mem hr
    have h3 : rids ≠ [] := List.ne_nil_of_mem hr
    have h4 : 0 < rids.length := List.length_pos.mpr h3
    rw [List.length_map] at h1
    omega
  simp only [beq_eq_false_iff_ne]
  exact Nat.ne_of_lt hlen

/-- C3: for a SPECIFIC_RECORDS share request by a user with a patient
profile, an empty `record_ids` fails with InvalidInput, and any listed
record with no matching owned row fails with PermissionDenied; in both
cases the state is returned unchanged — no `ShareToken` and no
`SharedRecord` row is persisted. -/
theorem create_share_link_specific_records (db : SharingDB) (uid : Nat)
    (req : CreateShareRequest) (tid : Nat) (tok : String) (jids : List Nat)
    (now : Nat) (prof : PatientProfile)
    (hprof : db.profiles.find? (fun p => p.user_id == some uid) = some prof)
    (hty : req.share_type = ShareType.SPECIFIC_RECORDS)
    (hnd : (db.medical_records.map MedicalRecord.id).Nodup) :
    (req.record_ids = [] →
      create_share_link uid req tid tok jids now db =
        (Except.error ShareError.invalidInput, db)) ∧
    (∀ r ∈ req.record_ids,
      (¬ ∃ m ∈ db.medical_records, m.id = r ∧ m.patient_id = prof.id) →
      create_share_link uid req tid tok jids now db =
        (Except.error ShareError.permissionDenied, db)) := by
  constructor
  · intro hempty
    unfold create_share_link
    rw [hprof]
    simp [hty, hempty]
  · intro r hr hno
    have hchk : check_record_ownership prof.id req.record_ids db = false :=
      check_record_ownership_false prof.id req.record_ids db hnd hr hno
    have hne : req.record_ids ≠ [] := List.ne_nil_of_mem hr
    unfold create_share_link
    rw [hprof]
    simp [hty, hchk, List.isEmpty_iff, hne]

/-- Witness for `create_share_link_specific_records` at `c3DB` / `c3Req`:
record 2 is not owned, so the call fails PermissionDenied and persists
nothing. -/
theorem create_share_link_specific_records_witness :
    c3DB.profiles.find? (fun p => p.user_id == some 10) = some ⟨1, some 10⟩ ∧
      (2 ∈ c3Req.record_ids ∧
        create_share_link 10 c3Req 1 "NEW" [5, 6] 0 c3DB =
          (Except.error ShareError.permissionDenied, c3DB)) :=
  ⟨by decide, by decide,
    (create_share_link_specific_records c3DB 10 c3Req 1 "NEW" [5, 6] 0
        ⟨1, some 10⟩ (by decide) (by decide) (by decide)).2
      2 (by decide) (by decide)⟩

/- ## C4: claim_invitation_code error ladder -/

/-- C4 (counterexample): the claim requires an `Expired` failure whenever
`now >= code_expires_at`; at `now = code_expires_at = 10` the source
accepts the claim (it rejects only when `code_expires_at < now`). -/
theorem c4_counterexample :
    c4DB.invitations.find?
        (fun i => i.code == normalize_code " mhat-ab23 ") = some c4Inv ∧
      c4Inv.code_expires_at = 10 ∧
      (claim_invitation_code " mhat-ab23 " 7 10 c4DB).1 = Except.ok () :=
  ⟨by decide, by decide, rfl⟩

/-- C4 (amended): `claim_invitation_code` normalizes the submitted code
(trim whitespace, uppercase) before lookup, then fails NotFound when no
invitation matches, else Revoked when `is_revoked`, else AlreadyUsed when
`claimed_by` is set, else Expired when `now > code_expires_at` (strict, so
an equality instant still succeeds); otherwise it succeeds, and on every
failure the state — in particular every `DoctorPatientAccess` row — is
returned unchanged. -/
theorem claim_invitation_code_errors (db : ClinicalDB) (rawCode : String)
    (doctorId now : Nat) :
    (db.invitations.find? (fun i => i.code == normalize_code rawCode) =
        none →
      claim_invitation_code rawCode doctorId now db =
        (Except.error ClaimError.notFound, db)) ∧
    (∀ inv, db.invitations.find?
        (fun i => i.code == normalize_code rawCode) = some inv →
      (inv.is_revoked = true →
        claim_invitation_code rawCode doctorId now db =
          (Except.error ClaimError.revoked, db)) ∧
      (inv.is_revoked = false → inv.claimed_by.isSome →
        claim_invitation_code rawCode doctorId now db =
          (Except.error ClaimError.alreadyUsed, db)) ∧
      (inv.is_revoked = false → inv.claimed_by = none →
        inv.code_expires_at < now →
        claim_invitation_code rawCode doctorId now db =
          (Except.error ClaimError.expired, db)) ∧
      (inv.is_revoked = false → inv.claimed_by = none →
        ¬ inv.code_expires_at < now →
        (claim_invitation_code rawCode doctorId now db).1 =
          Except.ok ())) := by
  constructor
  · intro hnone
    simp only [claim_invitation_code]
    rw [hnone]
  · intro inv hfind
    refine ⟨?_, ?_, ?_, ?_⟩
    · intro hrev
      simp only [claim_invitation_code]
      rw [hfind]
      simp [hrev]
    · intro hrev hcl
      simp only [claim_invitation_code]
      rw [hfind]
      simp [hrev, hcl]
    · intro hrev hcl hexp
      have hcl' : inv.claimed_by.isSome = false := by simp [hcl]
      simp only [claim_invitation_code]
      rw [hfind]
      simp [hrev, hcl', hexp]
    · intro hrev hcl hexp
      have hcl' : inv.claimed_by.isSome = false := by simp [hcl]
      simp only [claim_invitation_code]
      rw [hfind]
      simp [hrev, hcl', hexp]

/-- Witness for `claim_invitation_code_errors`: a code nobody issued
fails NotFound and leaves the state unchanged. -/
theorem claim_invitation_code_errors_witness :
    claim_invitation_code "NOPE" 7 0 c4DB =
      (Except.error ClaimError.notFound, c4DB) :=
  (claim_invitation_code_errors c4DB "NOPE" 7 0).1 (by decide)

/- ## C5: successful claim, idempotent upgrade, exactly-once -/

/-- C5: when `claim_invitation_code` succeeds, the invitation is marked
claimed (`claimed_by`, `claimed_at`); an existing (doctor, patient)
access row is updated in place to the invitation's level/type with no
new row, otherwise a new row is inserted with
`granted_by = invitation.created_by`; and any second claim of the same
code — by any doctor, at any instant — fails AlreadyUsed and leaves the
post-claim state (including the access row) unchanged. -/
theorem claim_invitation_code_success (db : ClinicalDB) (rawCode : String)
    (doctorId now : Nat) (inv : AccessInvitation)
    (hfind : db.invitations.find?
      (fun i => i.code == normalize_code rawCode) = some inv)
    (hrev : inv.is_revoked = false) (hcl : inv.claimed_by = none)
    (hexp : ¬ inv.code_expires_at < now) :
    (claim_invitation_code rawCode doctorId now db).1 = Except.ok () ∧
    (mark_claimed doctorId now inv ∈
      (claim_invitation_code rawCode doctorId now db).2.invitations) ∧
    ((∃ a ∈ db.accesses, a.doctor_id = doctorId ∧
        a.patient_profile_id = inv.patient_profile_id) →
      (claim_invitation_code rawCode doctorId now db).2.accesses.length =
          db.accesses.length ∧
      ∀ a ∈ db.accesses, a.doctor_id = doctorId →
        a.patient_profile_id = inv.patient_profile_id →
        upgrade_access inv a ∈
          (claim_invitation_code rawCode doctorId now db).2.accesses) ∧
    ((¬ ∃ a ∈ db.accesses, a.doctor_id = doctorId ∧
        a.patient_profile_id = inv.patient_profile_id) →
      (claim_invitation_code rawCode doctorId now db).2.accesses =
        db.accesses ++ [new_claim_access doctorId inv]) ∧
    (∀ d2 now2, claim_invitation_code rawCode d2 now2
        (claim_invitation_code rawCode doctorId now db).2 =
      (Except.error ClaimError.alreadyUsed,
        (claim_invitation_code rawCode doctorId now db).2)) := by
  have hcl' : inv.claimed_by.isSome = false := by simp [hcl]
  have hinvmem : inv ∈ db.invitations := List.mem_of_find?_eq_some hfind
  have hcode : inv.code = normalize_code rawCode := by
    simpa using List.find?_some hfind
  have hres : claim_invitation_code rawCode doctorId now db =
      (Except.ok (), { db with
        invitations := db.invitations.map (fun i =>
          if i.code == normalize_code rawCode then
            mark_claimed doctorId now i
          else i)
        accesses :=
          if db.accesses.any (fun a => a.doctor_id == doctorId &&
              a.patient_profile_id == inv.patient_profile_id) then
            db.accesses.map (fun a =>
              if a.doctor_id == doctorId &&
                  a.patient_profile_id == inv.patient_profile_id then
                upgrade_access inv a
              else a)
          else db.accesses ++ [new_claim_access doctorId inv] }) := by
    simp only [claim_invitation_code]
    rw [hfind]
    simp [hrev, hcl', hexp]
  have hacc : (claim_invitation_code rawCode doctorId now db).2.accesses =
      if db.accesses.any (fun a => a.doctor_id == doctorId &&
          a.patient_profile_id == inv.patient_profile_id) then
        db.accesses.map (fun a =>
          if a.doctor_id == doctorId &&
              a.patient_profile_id == inv.patient_profile_id then
            upgrade_access inv a
          else a)
      else db.accesses ++ [new_claim_access doctorId inv] := by
    rw [hres]
  have hinvs : (claim_invitation_code rawCode doctorId now db).2.invitations =
      db.invitations.map (fun i =>
        if i.code == normalize_code rawCode then
          mark_claimed doctorId now i
        else i) := by
    rw [hres]
  refine ⟨by rw [hres], ?_, ?_, ?_, ?_⟩
  · rw [hinvs]
    have harg : mark_claimed doctorId now inv =
        (fun i : AccessInvitation =>
          if i.code == normalize_code rawCode then
            mark_claimed doctorId now i
          else i) inv := by
      simp [hcode]
    rw [harg]
    exact List.mem_map_of_mem _ hinvmem
  · intro ⟨a, ha, ha1, ha2⟩
    have hany : db.accesses.any (fun a => a.doctor_id == doctorId &&
        a.patient_profile_id == inv.patient_profile_id) = true := by
      refine List.any_eq_true.mpr ⟨a, ha, ?_⟩
      simp [ha1, ha2]
    rw [hacc, hany, if_pos rfl]
    constructor
    · simp
    · intro b hb hb1 hb2
      have harg : upgrade_access inv b =
          (fun x : DoctorPatientAccess =>
            if x.doctor_id == doctorId &&
                x.patient_profile_id == inv.patient_profile_id then
              upgrade_access inv x
            else x) b := by
        simp [hb1, hb2]
      rw [harg]
      exact List.mem_map_of_mem _ hb
  · intro hnex
    have hany : db.accesses.any (fun a => a.doctor_id == doctorId &&
        a.patient_profile_id == inv.patient_profile_id) = false := by
      refine List.any_eq_false.mpr ?_
      intro a ha hcontra
      simp only [Bool.and_eq_true, beq_iff_eq] at hcontra
      exact hnex ⟨a, ha, hcontra.1, hcontra.2⟩
    rw [hacc, hany, if_neg (by simp)]
  · intro d2 now2
    have hg : ∀ i : AccessInvitation,
        ((fun i : AccessInvitation =>
          if i.code == normalize_code rawCode then
            mark_claimed doctorId now i
          else i) i).code = i.code := by
      intro i
      by_cases hc : i.code == normalize_code rawCode <;>
        simp [hc, mark_claimed]
    have hinv2 : (claim_invitation_code rawCode doctorId now
        db).2.invitations.find?
        (fun i => i.code == normalize_code rawCode) =
        some (mark_claimed doctorId now inv) := by
      rw [hinvs]
      rw [find_map_key AccessInvitation.code _ hg db.invitations
        (normalize_code rawCode), hfind]
      simp [hcode]
    generalize hX : (claim_invitation_code rawCode doctorId now db).2 = db2
      at hinv2 ⊢
    simp only [claim_invitation_code]
    rw [hinv2]
    simp [hrev, mark_claimed]

/-- Witness for `claim_invitation_code_success` at `c4DB`: doctor 7
claims the open invitation; any later claim of the same code fails
AlreadyUsed without changing state. -/
theorem claim_invitation_code_success_witness :
    (claim_invitation_code "MHAT-AB23" 7 5 c4DB).1 = Except.ok () ∧
      (∀ d2 now2, claim_invitation_code "MHAT-AB23" d2 now2
          (claim_invitation_code "MHAT-AB23" 7 5 c4DB).2 =
        (Except.error ClaimError.alreadyUsed,
          (claim_invitation_code "MHAT-AB23" 7 5 c4DB).2)) :=
  ⟨(claim_invitation_code_success c4DB "MHAT-AB23" 7 5 c4Inv (by decide)
      (by decide) (by decide) (by decide)).1,
    (claim_invitation_code_success c4DB "MHAT-AB23" 7 5 c4Inv (by decide)
      (by decide) (by decide) (by decide)).2.2.2.2⟩

/- ## C6: grantAccess permission and duplicate checks -/

/-- C6: `add_family_member_access` fails PermissionDenied when the
granter has no active `can_manage_family` membership on the patient, and
fails AlreadyExists when the grantee already has an active membership;
in both failure cases the state (hence the membership table) is returned
unchanged, and on success exactly one new active membership with the
given relationship type, access level and `can_manage_family` flag is
appended. -/
theorem add_family_member_access_spec (db : FamilyDB)
    (granter grantee patient : Nat) (rel : RelationshipType)
    (lvl : FamAccessLevel) (canManage : Bool) (newId : Nat) :
    ((¬ ∃ g ∈ db.memberships, g.user_id = granter ∧
        g.patient_profile_id = patient ∧ g.is_active = true ∧
        g.can_manage_family = true) →
      add_family_member_access granter grantee patient rel lvl canManage
        newId db = (Except.error FamilyError.permissionDenied, db)) ∧
    ((∃ g ∈ db.memberships, g.user_id = granter ∧
        g.patient_profile_id = patient ∧ g.is_active = true ∧
        g.can_manage_family = true) →
      (∃ e ∈ db.memberships, e.user_id = grantee ∧
        e.patient_profile_id = patient ∧ e.is_active = true) →
      add_family_member_access granter grantee patient rel lvl canManage
        newId db = (Except.error FamilyError.alreadyExists, db)) ∧
    ((∃ g ∈ db.memberships, g.user_id = granter ∧
        g.patient_profile_id = patient ∧ g.is_active = true ∧
        g.can_manage_family = true) →
      (¬ ∃ e ∈ db.memberships, e.user_id = grantee ∧
        e.patient_profile_id = patient ∧ e.is_active = true) →
      add_family_member_access granter grantee patient rel lvl canManage
        newId db =
        (Except.ok (new_family_membership granter grantee patient rel lvl
          canManage newId),
          ⟨db.memberships ++ [new_family_membership granter grantee patient
            rel lvl canManage newId]⟩)) := by
  refine ⟨?_, ?_, ?_⟩
  · intro hno
    have hnone : db.memberships.find? (fun m => m.user_id == granter &&
        m.patient_profile_id == patient && m.is_active &&
        m.can_manage_family) = none := by
      rw [List.find?_eq_none]
      intro x hx hpred
      simp only [Bool.and_eq_true, beq_iff_eq] at hpred
      exact hno ⟨x, hx, hpred.1.1.1, hpred.1.1.2, hpred.1.2, hpred.2⟩
    unfold add_family_member_access
    rw [hnone]
  · intro ⟨g, hg, hg1, hg2, hg3, hg4⟩ ⟨e, he, he1, he2, he3⟩
    have hgs : (db.memberships.find? (fun m => m.user_id == granter &&
        m.patient_profile_id == patient && m.is_active &&
        m.can_manage_family)).isSome = true := by
      rw [List.find?_isSome]
      exact ⟨g, hg, by simp [hg1, hg2, hg3, hg4]⟩
    have hes : (db.memberships.find? (fun m => m.user_id == grantee &&
        m.patient_profile_id == patient && m.is_active)).isSome = true := by
      rw [List.find?_isSome]
      exact ⟨e, he, by simp [he1, he2, he3]⟩
    unfold add_family_member_access
    cases hfg : db.memberships.find? (fun m => m.user_id == granter &&
        m.patient_profile_id == patient && m.is_active &&
        m.can_manage_family) with
    | none => rw [hfg] at hgs; simp at hgs
    | some gm =>
      cases hfe : db.memberships.find? (fun m => m.user_id == grantee &&
          m.patient_profile_id == patient && m.is_active) with
      | none => rw [hfe] at hes; simp at hes
      | some em => rfl
  · intro ⟨g, hg, hg1, hg2, hg3, hg4⟩ hno
    have hgs : (db.memberships.find? (fun m => m.user_id == granter &&
        m.patient_profile_id == patient && m.is_active &&
        m.can_manage_family)).isSome = true := by
      rw [List.find?_isSome]
      exact ⟨g, hg, by simp [hg1, hg2, hg3, hg4]⟩
    have hfe : db.memberships.find? (fun m => m.user_id == grantee &&
        m.patient_profile_id == patient && m.is_active) = none := by
      rw [List.find?_eq_none]
      intro x hx hpred
      simp only [Bool.and_eq_true, beq_iff_eq] at hpred
      exact hno ⟨x, hx, hpred.1.1, hpred.1.2, hpred.2⟩
    unfold add_family_member_access
    cases hfg : db.memberships.find? (fun m => m.user_id == granter &&
        m.patient_profile_id == patient && m.is_active &&
        m.can_manage_family) with
    | none => rw [hfg] at hgs; simp at hgs
    | some gm => rw [hfe]

/-- Witness for `add_family_member_access_spec` at `famDB`: user 23 has
no membership at all on patient 1, so granting fails PermissionDenied
and the state is unchanged. -/
theorem add_family_member_access_spec_witness :
    add_family_member_access 23 22 1 RelationshipType.OTHER
      FamAccessLevel.READ_ONLY false 9 famDB =
      (Except.error FamilyError.permissionDenied, famDB) :=
  (add_family_member_access_spec famDB 23 22 1 RelationshipType.OTHER
    FamAccessLevel.READ_ONLY false 9).1 (by decide)

/- ## C7: revoke_access soft delete and check_access -/

/-- C7: for a membership row `m` (ids unique, and `m` the only possibly
active row for its (user, patient) pair), `revoke_access` succeeds iff
the revoker holds an active `can_manage_family` membership on the same
patient or is the membership's own user — otherwise it fails
PermissionDenied with the state unchanged; on success it returns the row
soft-revoked (`is_active = false`, `revoked_at`, `revoked_by` set), the
row count is preserved (never deleted), the revoked row is still stored,
and `check_access` for (m.user, m.patient) is false at every required
level. -/
theorem revoke_access_spec (db : FamilyDB) (revoker now : Nat)
    (m : FamilyMembership) (hm : m ∈ db.memberships)
    (hid : (db.memberships.map FamilyMembership.id).Nodup)
    (huniq : ∀ x ∈ db.memberships, x.user_id = m.user_id →
      x.patient_profile_id = m.patient_profile_id → x.is_active = true →
      x.id = m.id) :
    (¬ ((∃ r ∈ db.memberships, r.user_id = revoker ∧
          r.patient_profile_id = m.patient_profile_id ∧
          r.is_active = true ∧ r.can_manage_family = true) ∨
        m.user_id = revoker) →
      revoke_access revoker m.id now db =
        (Except.error FamilyError.permissionDenied, db)) ∧
    (((∃ r ∈ db.memberships, r.user_id = revoker ∧
          r.patient_profile_id = m.patient_profile_id ∧
          r.is_active = true ∧ r.can_manage_family = true) ∨
        m.user_id = revoker) →
      (revoke_access revoker m.id now db).1 =
        Except.ok (soft_revoke now revoker m) ∧
      (revoke_access revoker m.id now db).2.memberships.length =
        db.memberships.length ∧
      soft_revoke now revoker m ∈
        (revoke_access revoker m.id now db).2.memberships ∧
      ∀ L, check_access (revoke_access revoker m.id now db).2
        m.user_id m.patient_profile_id L = false) := by
  have hfindm : db.memberships.find? (fun x => x.id == m.id) = some m := by
    have := find_eq_of_key_nodup FamilyMembership.id hid hm
    simpa using this
  constructor
  · intro hno
    push_neg at hno
    obtain ⟨hnoperm, hne⟩ := hno
    have hperm : db.memberships.find? (fun x => x.user_id == revoker &&
        x.patient_profile_id == m.patient_profile_id &&
        x.is_active && x.can_manage_family) = none := by
      rw [List.find?_eq_none]
      intro x hx hpred
      simp only [Bool.and_eq_true, beq_iff_eq] at hpred
      exact (hnoperm x hx hpred.1.1.1 hpred.1.1.2 hpred.1.2) hpred.2
    unfold revoke_access
    rw [hfindm]
    simp only [hperm]
    rw [if_pos (by simp [hne])]
  · intro hok
    have hcond : ((db.memberships.find? (fun x => x.user_id == revoker &&
        x.patient_profile_id == m.patient_profile_id &&
        x.is_active && x.can_manage_family)).isNone &&
        (m.user_id != revoker)) = false := by
      rcases hok with ⟨r, hr, hr1, hr2, hr3, hr4⟩ | heq
      · have : (db.memberships.find? (fun x => x.user_id == revoker &&
            x.patient_profile_id == m.patient_profile_id &&
            x.is_active && x.can_manage_family)).isSome = true := by
          rw [List.find?_isSome]
          exact ⟨r, hr, by simp [hr1, hr2, hr3, hr4]⟩
        cases hf : db.memberships.find? (fun x => x.user_id == revoker &&
            x.patient_profile_id == m.patient_profile_id &&
            x.is_active && x.can_manage_family) with
        | none => rw [hf] at this; simp at this
        | some _ => simp
      · simp [heq]
    have hres : revoke_access revoker m.id now db =
        (Except.ok (soft_revoke now revoker m),
          ⟨db.memberships.map (fun x =>
            if x.id == m.id then soft_revoke now revoker x else x)⟩) := by
      unfold revoke_access
      rw [hfindm]
      simp only [hcond]
      rw [if_neg (by simp)]
    have hsrm : (fun x : FamilyMembership =>
        if x.id == m.id then soft_revoke now revoker x else x) m =
        soft_revoke now revoker m := by
      simp
    refine ⟨by rw [hres], by rw [hres]; simp, ?_, ?_⟩
    · rw [hres]
      show _ ∈ db.memberships.map _
      rw [← hsrm]
      exact List.mem_map_of_mem _ hm
    · intro L
      rw [hres]
      unfold check_access
      have hnone : (db.memberships.map (fun x =>
          if x.id == m.id then soft_revoke now revoker x else x)).find?
          (fun x => x.user_id == m.user_id &&
            x.patient_profile_id == m.patient_profile_id &&
            x.is_active) = none := by
        rw [List.find?_eq_none]
        intro y hy hpred
        obtain ⟨x, hx, rfl⟩ := List.mem_map.mp hy
        by_cases hxid : x.id == m.id
        · rw [if_pos hxid] at hpred
          simp [soft_revoke] at hpred
        · rw [if_neg hxid] at hpred
          simp only [Bool.and_eq_true, beq_iff_eq] at hpred
          exact hxid (by
            rw [huniq x hx hpred.1.1 hpred.1.2 hpred.2]
            simp)
      rw [hnone]

/-- Witness for `revoke_access_spec` at `famDB`: the managing parent
(user 20) revokes the reader's membership; the row is kept but
deactivated and `check_access` fails at every level thereafter. -/
theorem revoke_access_spec_witness :
    (revoke_access 20 famReader.id 8 famDB).1 =
        Except.ok (soft_revoke 8 20 famReader) ∧
      (revoke_access 20 famReader.id 8 famDB).2.memberships.length =
        famDB.memberships.length ∧
      soft_revoke 8 20 famReader ∈
        (revoke_access 20 famReader.id 8 famDB).2.memberships ∧
      ∀ L, check_access (revoke_access 20 famReader.id 8 famDB).2
        famReader.user_id famReader.patient_profile_id L = false :=
  (revoke_access_spec famDB 20 8 famReader (by decide) (by decide)
    (by decide)).2 (Or.inl ⟨famManager, by decide, by decide, by decide,
      by decide, by decide⟩)

/- ## C8: access logging across the public share endpoints -/

/-- C8 (counterexample): the shared-document endpoint performs a
successful content retrieval through a valid token, yet the post-state
equals the pre-state — no `ShareAccessLog` row is appended and
`access_count` is not incremented, contradicting the claim that every
successful retrieval through any of the four public endpoints logs and
increments. -/
theorem c8_counterexample :
    validate_share_token "DOCTOK" 0 c8DB = some c8Tok ∧
      (view_shared_document "DOCTOK" 4 0 c8DB).1 =
        Except.ok "https://s3/doc4" ∧
      (view_shared_document "DOCTOK" 4 0 c8DB).2 = c8DB :=
  ⟨rfl, rfl, by decide⟩

/-- C8 (amended): of the four public share endpoints, the records view
and the summary view append exactly one `ShareAccessLog` row for the
validated token and increment that token's `access_count` by exactly one
on every success; the summary record-detail and shared-document
endpoints return content with the state unchanged — no log row and no
increment. -/
theorem shared_view_logging (db : SharingDB) (t : String)
    (now logId rid did : Nat) (ip ua : Option String) :
    (∀ res db', view_shared_records t now logId ip ua db =
        (Except.ok res, db') →
      ∃ st, validate_share_token t now db = some st ∧
        db'.access_logs = db.access_logs ++ [⟨logId, st.id, ip, ua⟩] ∧
        db'.share_tokens = db.share_tokens.map (bump_token st.id)) ∧
    (∀ res db', view_medical_history_summary t now logId ip ua db =
        (Except.ok res, db') →
      ∃ st, validate_share_token t now db = some st ∧
        db'.access_logs = db.access_logs ++ [⟨logId, st.id, ip, ua⟩] ∧
        db'.share_tokens = db.share_tokens.map (bump_token st.id)) ∧
    (∀ res db', view_summary_record_detail t rid now db =
        (Except.ok res, db') → db' = db) ∧
    (∀ res db', view_shared_document t did now db =
        (Except.ok res, db') → db' = db) := by
  refine ⟨?_, ?_, ?_, ?_⟩
  · intro res db' h
    unfold view_shared_records at h
    cases hval : validate_share_token t now db with
    | none => rw [hval] at h; simp at h
    | some st =>
      rw [hval] at h
      simp only [Prod.mk.injEq] at h
      obtain ⟨h1, h2⟩ := h
      subst h2
      exact ⟨st, rfl, rfl, rfl⟩
  · intro res db' h
    unfold view_medical_history_summary at h
    cases hval : validate_share_token t now db with
    | none => rw [hval] at h; simp at h
    | some st =>
      rw [hval] at h
      dsimp only at h
      split_ifs at h with hty
      · simp at h
      · cases hprof : db.profiles.find? (fun p => p.id == st.patient_id) with
        | none => rw [hprof] at h; simp at h
        | some prof =>
          rw [hprof] at h
          simp only [Prod.mk.injEq] at h
          obtain ⟨h1, h2⟩ := h
          subst h2
          exact ⟨st, rfl, rfl, rfl⟩
  · intro res db' h
    unfold view_summary_record_detail at h
    cases hval : validate_share_token t now db with
    | none => rw [hval] at h; simp at h
    | some st =>
      rw [hval] at h
      dsimp only at h
      split_ifs at h with hty
      · simp at h
      · cases hrec : db.medical_records.find? (fun r =>
            r.id == rid && r.patient_id == st.patient_id) with
        | none => rw [hrec] at h; simp at h
        | some record =>
          rw [hrec] at h
          simp only [Prod.mk.injEq] at h
          exact h.2.symm
  · intro res db' h
    unfold view_shared_document at h
    cases hval : validate_share_token t now db with
    | none => rw [hval] at h; simp at h
    | some st =>
      rw [hval] at h
      dsimp only at h
      cases hdoc : db.documents.find? (fun d => d.id == did &&
          db.medical_records.any (fun r => r.id == d.medical_record_id &&
            r.patient_id == st.patient_id)) with
      | none => rw [hdoc] at h; simp at h
      | some document =>
        rw [hdoc] at h
        simp only [Prod.mk.injEq] at h
        exact h.2.symm

/-- Witness for `shared_view_logging`: at `c8DB` the records view
succeeds and appends exactly one log row while bumping the token. -/
theorem shared_view_logging_witness :
    ∃ st, validate_share_token "DOCTOK" 0 c8DB = some st ∧
      (log_and_increment 1 5 none none c8DB).access_logs =
        c8DB.access_logs ++ [⟨5, st.id, none, none⟩] ∧
      (log_and_increment 1 5 none none c8DB).share_tokens =
        c8DB.share_tokens.map (bump_token st.id) :=
  (shared_view_logging c8DB "DOCTOK" 0 5 0 0 none none).1 []
    (log_and_increment 1 5 none none c8DB) rfl

/- ## C9: check_access is monotone in the required level -/

/-- C9: whenever an active membership exists for (user, patient),
`check_access` at EMERGENCY_ONLY is true regardless of the membership's
level; and whenever `check_access` holds at a required level it holds at
every level sitting lower in the EMERGENCY_ONLY < READ_ONLY <
FULL_ACCESS hierarchy. -/
theorem check_access_monotone (db : FamilyDB) (userId patientId : Nat) :
    ((∃ m ∈ db.memberships, m.user_id = userId ∧
        m.patient_profile_id = patientId ∧ m.is_active = true) →
      check_access db userId patientId FamAccessLevel.EMERGENCY_ONLY =
        true) ∧
    (∀ L L' : FamAccessLevel,
      access_hierarchy L' ≤ access_hierarchy L →
      check_access db userId patientId L = true →
      check_access db userId patientId L' = true) := by
  constructor
  · intro ⟨m, hm, h1, h2, h3⟩
    have hs : (db.memberships.find? (fun x => x.user_id == userId &&
        x.patient_profile_id == patientId && x.is_active)).isSome = true := by
      rw [List.find?_isSome]
      exact ⟨m, hm, by simp [h1, h2, h3]⟩
    unfold check_access
    cases hf : db.memberships.find? (fun x => x.user_id == userId &&
        x.patient_profile_id == patientId && x.is_active) with
    | none => rw [hf] at hs; simp at hs
    | some found => simp [access_hierarchy]
  · intro L L' hle h
    unfold check_access at h ⊢
    cases hf : db.memberships.find? (fun x => x.user_id == userId &&
        x.patient_profile_id == patientId && x.is_active) with
    | none => rw [hf] at h; simp at h
    | some found =>
      rw [hf] at h
      simp only [decide_eq_true_eq] at h ⊢
      exact le_trans hle h

/-- Witness for `check_access_monotone` at `famDB`: user 21 has an
active READ_ONLY membership on patient 1, so the EMERGENCY_ONLY check
passes. -/
theorem check_access_monotone_witness :
    check_access famDB 21 1 FamAccessLevel.EMERGENCY_ONLY = true :=
  (check_access_monotone famDB 21 1).1
    ⟨famReader, by decide, by decide, by decide, by decide⟩

/- ## C10: a claimed invitation cannot be revoked -/

/-- C10: when the invitation exists, belongs to the calling patient's
profile, and `claimed_by` is set, `revoke_invitation` fails with the
cannot-revoke-claimed error and returns the state unchanged — in
particular `is_revoked` and every other invitation field keep their
values. -/
theorem revoke_invitation_claimed (db : ClinicalDB) (uid invId : Nat)
    (inv : AccessInvitation) (prof : PatientProfile)
    (hfind : db.invitations.find? (fun i => i.id == invId) = some inv)
    (hprof : db.profiles.find? (fun p => p.user_id == some uid) = some prof)
    (hown : inv.patient_profile_id = prof.id)
    (hcl : inv.claimed_by.isSome = true) :
    revoke_invitation uid invId db =
      (Except.error InvError.cannotRevokeClaimed, db) := by
  unfold revoke_invitation
  rw [hfind, hprof]
  simp [hown, hcl]

/-- Witness for `revoke_invitation_claimed` at `c10DB`: patient user 10
cannot revoke the invitation doctor 7 already claimed. -/
theorem revoke_invitation_claimed_witness :
    revoke_invitation 10 2 c10DB =
      (Except.error InvError.cannotRevokeClaimed, c10DB) :=
  revoke_invitation_claimed c10DB 10 2 c10Inv ⟨1, some 10⟩ (by decide)
    (by decide) (by decide) (by decide)
